import Mathlib

/-!
Verification of the quiz-session-service session core
(src/day7/quiz-session-service): the Session Record
(src/models/attempt.py) and the Session Manager
(src/services/session_manager.py), shallowly embedded.

Modelling conventions:
* timestamps are abstract instants (`Nat`); `datetime.isoformat` /
  `datetime.fromisoformat` are tracked symbolically by the `TimeVal` tags
  `.dt` (a datetime object) and `.iso` (its ISO-8601 string);
  `fromisoformat` applied to a non-string raises `TypeError`.
* a JSON text whose parse is an object is represented by the ordered list
  of pairs the text spells out (duplicate keys possible, as `json.dumps`
  emits them); `json.loads` of such a text is a last-wins insertion-ordered
  fold (`loadsS`), matching Python dict construction. `json.loads` applied
  to an already-parsed dict raises `TypeError`. The `AnsVal` tags `.text`
  and `.parsed` distinguish the two shapes the `answers` field takes.
* Python dict keys of the in-memory `answers` mapping may be ints or
  strings (`AKey`); `json.dumps` stringifies int keys (`dumpsA`).
* the PostgreSQL row and the Redis value are modelled by `DbRecord` and
  `AttemptDict`; the two stores are association lists keyed by id /
  cache key inside `SysState`.
-/

deriving instance DecidableEq for Except

/-- Python-level errors that the embedded code can raise. -/
inductive PyErr where
  | typeError
  | valueError
  | uniqueViolation
deriving DecidableEq, Repr

/-- A Python datetime-valued field: either a datetime object or the
ISO string `t.isoformat()` of the instant `t`. -/
inductive TimeVal where
  | dt (t : Nat)
  | iso (t : Nat)
deriving DecidableEq, Repr

/-- `datetime.fromisoformat`: parses an ISO string back to the instant;
raises `TypeError` when handed a datetime object instead of a string. -/
def fromisoformat : TimeVal → Except PyErr Nat
  | .iso t => .ok t
  | .dt _ => .error .typeError

/-- A key of the in-memory `answers` dict: Python allows both the int
`question_id` and its decimal string. -/
inductive AKey where
  | intKey (n : Int)
  | strKey (s : String)
deriving DecidableEq, Repr

/-- String form of an answers key, as `json.dumps` emits it. -/
def AKey.toStr : AKey → String
  | .intKey n => toString n
  | .strKey s => s

/-- An ordered string-keyed object, as spelled by a JSON text
(duplicates possible) or held by a parsed dict. -/
abbrev StrMap := List (String × String)

/-- The in-memory `answers` dict (insertion ordered, keys unique). -/
abbrev PyAnswers := List (AKey × String)

/-- Python dict assignment `d[k] = v`: overwrite in place when the key is
present, else append. -/
def assocSet {α β : Type} [DecidableEq α] : List (α × β) → α → β → List (α × β)
  | [], k, v => [(k, v)]
  | (k0, v0) :: rest, k, v =>
      if k0 = k then (k0, v) :: rest else (k0, v0) :: assocSet rest k v

/-- `json.loads` of a JSON object text: pairs folded left into a fresh
dict, so a duplicated key keeps its first position with its last value. -/
def loadsS (m : StrMap) : StrMap :=
  m.foldl (fun acc p => assocSet acc p.1 p.2) []

/-- `json.dumps` of the `answers` dict: int keys become decimal strings,
order kept, duplicate string forms emitted as-is. -/
def dumpsA (xs : PyAnswers) : StrMap :=
  xs.map (fun p => (p.1.toStr, p.2))

/-- A parsed string-keyed object viewed as an `answers` dict
(all keys strings), as `json.loads` yields it. -/
def strKeyed (m : StrMap) : PyAnswers :=
  m.map (fun p => (AKey.strKey p.1, p.2))

/-- `AttemptStatus` (src/models/attempt.py lines 7-12). -/
inductive AttemptStatus where
  | started
  | in_progress
  | completed
  | expired
  | abandoned
deriving DecidableEq, Repr

/-- The enum's `.value` string. -/
def AttemptStatus.value : AttemptStatus → String
  | .started => "started"
  | .in_progress => "in_progress"
  | .completed => "completed"
  | .expired => "expired"
  | .abandoned => "abandoned"

/-- `AttemptStatus(v)`: enum lookup by value; raises `ValueError` on an
unknown string. -/
def statusOfValue (v : String) : Except PyErr AttemptStatus :=
  if v = "started" then .ok .started
  else if v = "in_progress" then .ok .in_progress
  else if v = "completed" then .ok .completed
  else if v = "expired" then .ok .expired
  else if v = "abandoned" then .ok .abandoned
  else .error .valueError

/-- Terminal statuses per the data-model: Completed, Expired, Abandoned. -/
def AttemptStatus.isTerminal : AttemptStatus → Bool
  | .completed => true
  | .expired => true
  | .abandoned => true
  | _ => false

/-- Terminal status at the stored-string level. -/
def terminalS (v : String) : Bool :=
  v = "completed" || v = "expired" || v = "abandoned"

/-- `QuizAttempt` (src/models/attempt.py lines 14-25). -/
structure QuizAttempt where
  id : String
  user_id : String
  quiz_id : String
  started_at : Nat
  current_question : Int := 0
  answers : PyAnswers := []
  status : AttemptStatus := .started
  time_remaining : Int := 1800
  last_updated : Nat
  version : Int := 1
deriving DecidableEq, Repr

/-- The `answers` slot of a stored dict: a JSON text spelling the
pairs `m` (`.text m`), or an already-parsed dict (`.parsed m`). -/
inductive AnsVal where
  | text (m : StrMap)
  | parsed (m : StrMap)
deriving DecidableEq, Repr

/-- `json.loads(data.get('answers', ...))` inside `from_dict`: only a
text parses; a dict raises `TypeError`. -/
def jsonLoadsAns : AnsVal → Except PyErr StrMap
  | .text m => .ok (loadsS m)
  | .parsed _ => .error .typeError

/-- The dict produced by `QuizAttempt.to_dict` (and, equivalently, the
object denoted by `json.dumps(attempt.to_dict())` in the cache), and the
shape handed to `QuizAttempt.from_dict`. -/
structure AttemptDict where
  id : String
  user_id : String
  quiz_id : String
  started_at : TimeVal
  current_question : Int
  answers : AnsVal
  status : String
  time_remaining : Int
  last_updated : TimeVal
  version : Int
deriving DecidableEq, Repr

/-- `QuizAttempt.to_dict` (src/models/attempt.py lines 27-39). -/
def QuizAttempt.to_dict (a : QuizAttempt) : AttemptDict :=
  { id := a.id
    user_id := a.user_id
    quiz_id := a.quiz_id
    started_at := .iso a.started_at
    current_question := a.current_question
    answers := .text (dumpsA a.answers)
    status := a.status.value
    time_remaining := a.time_remaining
    last_updated := .iso a.last_updated
    version := a.version }

/-- `QuizAttempt.from_dict` (src/models/attempt.py lines 41-54);
fallible parses evaluated in the source's argument order. -/
def QuizAttempt.from_dict (d : AttemptDict) : Except PyErr QuizAttempt := do
  let st ← fromisoformat d.started_at
  let ans ← jsonLoadsAns d.answers
  let σ ← statusOfValue d.status
  let lu ← fromisoformat d.last_updated
  .ok { id := d.id
        user_id := d.user_id
        quiz_id := d.quiz_id
        started_at := st
        current_question := d.current_question
        answers := strKeyed ans
        status := σ
        time_remaining := d.time_remaining
        last_updated := lu
        version := d.version }

/-- One row of the `quiz_attempts` table (schema in
src/services/database.py lines 31-44); `answers` holds the object the
JSONB/text column spells. -/
structure DbRecord where
  id : String
  user_id : String
  quiz_id : String
  started_at : Nat
  current_question : Int
  answers : StrMap
  status : String
  time_remaining : Int
  last_updated : Nat
  version : Int
deriving DecidableEq, Repr

/-- Store operations a manager call can perform, for effect tracking. -/
inductive StoreOp where
  | redisGet
  | redisSetex
  | redisDel
  | pgSelect
  | pgUpdate
  | pgInsert
deriving DecidableEq, Repr

/-- Which store operations mutate a store. -/
def StoreOp.isWrite : StoreOp → Bool
  | .redisGet => false
  | .pgSelect => false
  | _ => true

/-- The two stores and the manager's `auto_save_tasks` map (task handles
keyed by session id). Cache values carry the serialized record and the
TTL they were set with. -/
structure SysState where
  db : List (String × DbRecord)
  cache : List (String × (AttemptDict × Nat))
  tasks : List String
deriving DecidableEq, Repr

/-- Redis key `f"session:{session_id}"`. -/
def cacheKey (session_id : String) : String := "session:" ++ session_id

/-- Redis `delete`: the key and its value are gone. -/
def cacheDel (c : List (String × (AttemptDict × Nat))) (k : String) :
    List (String × (AttemptDict × Nat)) :=
  c.filter (fun p => !(p.1 = k))

/-- `SessionManager.get_session` (session_manager.py lines 52-71):
Redis first; on a miss, PostgreSQL, where `dict(row)` holds datetime
objects and the code pre-parses `answers` into a dict before calling
`from_dict`. Returns the list of store operations performed and the
result (an exception from `from_dict` propagates). -/
def get_session (s : SysState) (session_id : String) :
    List StoreOp × Except PyErr (Option QuizAttempt) :=
  match List.lookup (cacheKey session_id) s.cache with
  | some (d, _) => ([.redisGet], (QuizAttempt.from_dict d).map some)
  | none =>
    match List.lookup session_id s.db with
    | some row =>
        ([.redisGet, .pgSelect],
          (QuizAttempt.from_dict
            { id := row.id
              user_id := row.user_id
              quiz_id := row.quiz_id
              started_at := .dt row.started_at
              current_question := row.current_question
              answers := .parsed (loadsS row.answers)
              status := row.status
              time_remaining := row.time_remaining
              last_updated := .dt row.last_updated
              version := row.version }).map some)
    | none => ([.redisGet, .pgSelect], .ok none)

/-- The read inside `update_progress` (lines 83-86):
`SELECT version, answers FROM quiz_attempts WHERE id = $1`. -/
def readPhase (db : List (String × DbRecord)) (session_id : String) :
    Option (Int × StrMap) :=
  (List.lookup session_id db).map (fun r => (r.version, r.answers))

/-- The conditional UPDATE inside `update_progress` (lines 88-100): the
new `answers` and `version` are computed from the read snapshot
`snap = (version, answers-text)`; the statement writes them together
with `current_question` and a fresh `last_updated` only where
`id` matches and `version` still equals the snapshot version, and
reports whether a row was updated. -/
def commitPhase (db : List (String × DbRecord)) (session_id : String)
    (question_id : Int) (answer : String) (now : Nat)
    (snap : Int × StrMap) : List (String × DbRecord) × Bool :=
  let newAnswers := assocSet (loadsS snap.2) (toString question_id) answer
  match List.lookup session_id db with
  | some r =>
      if r.version = snap.1 then
        (assocSet db session_id
          { r with
            answers := newAnswers
            current_question := question_id
            last_updated := now
            version := snap.1 + 1 }, true)
      else (db, false)
  | none => (db, false)

/-- `update_progress` after its initial read (lines 85-117): the
conditional update, then on acceptance the cache refresh — a
`get_session` read (served by the shared Redis and, on a miss, by a
separate connection that sees only the pre-transaction rows), the
in-memory patch of that value, and a `setex` with TTL 1800. An
exception while refreshing aborts the surrounding transaction, so the
accepted update is rolled back and nothing is cached. -/
def updateAfterRead (s : SysState) (session_id : String)
    (question_id : Int) (answer : String) (now : Nat)
    (snap : Int × StrMap) : SysState × Except PyErr Bool :=
  let (db2, accepted) := commitPhase s.db session_id question_id answer now snap
  if accepted then
    match (get_session s session_id).2 with
    | .error e => (s, .error e)
    | .ok none => ({ s with db := db2 }, .ok true)
    | .ok (some a) =>
        let a2 := { a with
          answers := assocSet a.answers (.intKey question_id) answer
          current_question := question_id
          version := snap.1 + 1 }
        ({ s with
            db := db2
            cache := assocSet s.cache (cacheKey session_id)
              (QuizAttempt.to_dict a2, 1800) }, .ok true)
  else (s, .ok false)

/-- `SessionManager.update_progress` (lines 73-117): read the current
version and answers; absent row reports `False`; otherwise run the
conditional update and, on acceptance, the cache refresh. -/
def update_progress (s : SysState) (session_id : String)
    (question_id : Int) (answer : String) (now : Nat) :
    SysState × Except PyErr Bool :=
  match readPhase s.db session_id with
  | none => (s, .ok false)
  | some snap => updateAfterRead s session_id question_id answer now snap

/-- `SessionManager.complete_session` (lines 119-141): one UPDATE
setting `status = 'completed'` and a fresh `last_updated` where the id
matches and `status != 'completed'`; if a row changed, delete the cache
entry and cancel/remove the auto-save task, and return `True`;
otherwise return `False`. -/
def complete_session (s : SysState) (session_id : String) (now : Nat) :
    SysState × Bool :=
  match List.lookup session_id s.db with
  | some r =>
      if r.status = "completed" then (s, false)
      else
        ({ db := assocSet s.db session_id
              { r with status := "completed", last_updated := now }
           cache := cacheDel s.cache (cacheKey session_id)
           tasks := s.tasks.erase session_id }, true)
  | none => (s, false)

/-- `SessionManager.create_session` (lines 16-50) with the generated
uuid and the clock passed in: build the default record, INSERT it
(the primary key rejects a duplicate id), cache its serialized form
with TTL 1800, and register the auto-save task. The INSERT names no
`last_updated` column, so the row gets the schema default `NOW()`. -/
def create_session (s : SysState) (new_id user_id quiz_id : String)
    (now : Nat) : SysState × Except PyErr QuizAttempt :=
  let attempt : QuizAttempt :=
    { id := new_id, user_id := user_id, quiz_id := quiz_id,
      started_at := now, last_updated := now }
  match List.lookup new_id s.db with
  | some _ => (s, .error .uniqueViolation)
  | none =>
      ({ db := s.db ++ [(new_id,
            { id := attempt.id
              user_id := attempt.user_id
              quiz_id := attempt.quiz_id
              started_at := attempt.started_at
              current_question := attempt.current_question
              answers := dumpsA attempt.answers
              status := attempt.status.value
              time_remaining := attempt.time_remaining
              last_updated := now
              version := attempt.version })]
         cache := assocSet s.cache (cacheKey new_id)
            (QuizAttempt.to_dict attempt, 1800)
         tasks := new_id :: s.tasks }, .ok attempt)

/-- What one tick of `_auto_save_loop` (lines 143-166) decides:
`exitBreak` is the `break` (absent session or `COMPLETED` status),
`touch` is the liveness UPDATE of `last_updated`, and `exitError` is an
exception escaping the `while` into the handlers that sit outside the
loop, terminating it. -/
inductive TickOutcome where
  | exitBreak
  | exitError
  | touch
deriving DecidableEq, Repr

/-- The liveness UPDATE of a tick:
`UPDATE quiz_attempts SET last_updated = NOW() WHERE id = $1`. -/
def dbTouch (db : List (String × DbRecord)) (session_id : String)
    (now : Nat) : List (String × DbRecord) :=
  match List.lookup session_id db with
  | some r => assocSet db session_id { r with last_updated := now }
  | none => db

/-- One tick of `_auto_save_loop` after its sleep: re-read via
`get_session`; `break` when absent or `COMPLETED`; otherwise touch
`last_updated`. An exception from the tick leaves the `while` for good,
because the `except` clauses wrap the whole loop. -/
def autoSaveTick (s : SysState) (session_id : String) (now : Nat) :
    SysState × TickOutcome :=
  match (get_session s session_id).2 with
  | .error _ => (s, .exitError)
  | .ok none => (s, .exitBreak)
  | .ok (some a) =>
      if a.status = .completed then (s, .exitBreak)
      else ({ s with db := dbTouch s.db session_id now }, .touch)

/-- Whether a time-valued field is an ISO string (so `fromisoformat`
parses it). -/
def TimeVal.isIso : TimeVal → Bool
  | .iso _ => true
  | .dt _ => false

/-- Whether a status string is one of the enum's values (so
`AttemptStatus(v)` succeeds). -/
def statusParses (v : String) : Bool :=
  v = "started" || v = "in_progress" || v = "completed" ||
    v = "expired" || v = "abandoned"

/-- A cache entry is in sync with a durable row: it deserializes
without error and its content matches the row — same identifiers,
`startedAt`, `currentStep`, `version`, `timeRemaining` and status
string, and its answers text parses to exactly the row's answers
mapping. (`lastUpdated` is only required to be parseable: the source's
refresh copies the previously cached timestamp, so the cached
`lastUpdated` lags the row's.) This is the invariant the store
serialization maintains for every reachable cache entry: the refresh
`setex` runs inside the update's transaction before COMMIT, so a later
call that observes the committed version also observes this refreshed
entry, and when the entry is instead absent (TTL expiry, `complete`'s
delete) the refresh raises and the transaction rolls back. -/
def entrySync (e : AttemptDict) (r : DbRecord) : Prop :=
  e.id = r.id ∧
  e.user_id = r.user_id ∧
  e.quiz_id = r.quiz_id ∧
  e.started_at = .iso r.started_at ∧
  e.current_question = r.current_question ∧
  jsonLoadsAns e.answers = .ok r.answers ∧
  e.status = r.status ∧
  statusParses e.status = true ∧
  e.last_updated.isIso = true ∧
  e.time_remaining = r.time_remaining ∧
  e.version = r.version

instance (e : AttemptDict) (r : DbRecord) : Decidable (entrySync e r) :=
  inferInstanceAs (Decidable
    (_ ∧ _ ∧ _ ∧ _ ∧ _ ∧ _ ∧ _ ∧ _ ∧ _ ∧ _ ∧ _))

/-- The empty deployment: no rows, no cache entries, no tasks. -/
def emptySys : SysState := { db := [], cache := [], tasks := [] }

/-- The session that `create_session` builds for
`(user "u1", quiz "q1")` under id `"s1"` at instant 0. -/
def attempt0 : QuizAttempt :=
  { id := "s1", user_id := "u1", quiz_id := "q1",
    started_at := 0, last_updated := 0 }

/-- The durable row of `attempt0`. -/
def row0 : DbRecord :=
  { id := "s1", user_id := "u1", quiz_id := "q1", started_at := 0,
    current_question := 0, answers := [], status := "started",
    time_remaining := 1800, last_updated := 0, version := 1 }

/-- The state right after `create_session emptySys "s1" "u1" "q1" 0`. -/
def st0 : SysState := (create_session emptySys "s1" "u1" "q1" 0).1

/-- A session that exists only in the durable store (its cache entry
has expired or was never written). -/
def rowOnly : DbRecord :=
  { id := "s2", user_id := "u1", quiz_id := "q1", started_at := 0,
    current_question := 0, answers := [], status := "started",
    time_remaining := 1800, last_updated := 0, version := 1 }

/-- State with `rowOnly` durable and nothing cached. -/
def stDbOnly : SysState := { db := [("s2", rowOnly)], cache := [], tasks := [] }

/-- An expired session, durable and cached. -/
def rowExp : DbRecord := { rowOnly with id := "s1", status := "expired" }

/-- The in-memory view of `rowExp`. -/
def attemptExp : QuizAttempt := { attempt0 with status := .expired }

/-- State holding the expired session in both stores. -/
def stExp : SysState :=
  { db := [("s1", rowExp)],
    cache := [("session:s1", (attemptExp.to_dict, 1800))], tasks := ["s1"] }

/-- A completed session, durable and cached. -/
def rowC : DbRecord := { rowOnly with id := "s1", status := "completed" }

/-- The in-memory view of `rowC`. -/
def attemptC : QuizAttempt := { attempt0 with status := .completed }

/-- State holding the completed session in both stores. -/
def stC : SysState :=
  { db := [("s1", rowC)],
    cache := [("session:s1", (attemptC.to_dict, 1800))], tasks := [] }

/-- A record whose answers dict has an integer key. -/
def attemptIK : QuizAttempt := { attempt0 with answers := [(.intKey 1, "A")] }

theorem lookup_assocSet_self {α β : Type} [DecidableEq α]
    (l : List (α × β)) (k : α) (v : β) :
    List.lookup k (assocSet l k v) = some v := by
  induction l with
  | nil => simp [assocSet, List.lookup]
  | cons hd tl ih =>
      by_cases h : hd.1 = k
      · simp [assocSet, h, List.lookup]
      · have hb : (k == hd.1) = false := by
          simp only [beq_eq_false_iff_ne]
          exact fun hh => h hh.symm
        simp [assocSet, h, List.lookup, hb, ih]

theorem lookup_assocSet_ne {α β : Type} [DecidableEq α]
    (l : List (α × β)) (k k2 : α) (v : β) (h : k2 ≠ k) :
    List.lookup k2 (assocSet l k v) = List.lookup k2 l := by
  have hb : (k2 == k) = false := by simpa only [beq_eq_false_iff_ne]
  induction l with
  | nil => simp [assocSet, List.lookup, hb]
  | cons hd tl ih =>
      by_cases h2 : hd.1 = k
      · subst h2
        simp [assocSet, List.lookup, hb]
      · by_cases h3 : k2 = hd.1
        · simp [assocSet, h2, List.lookup, h3]
        · have hb3 : (k2 == hd.1) = false := by simpa only [beq_eq_false_iff_ne]
          simp [assocSet, h2, List.lookup, hb3, ih]

theorem lookup_cacheDel_self (c : List (String × (AttemptDict × Nat)))
    (k : String) : List.lookup k (cacheDel c k) = none := by
  induction c with
  | nil => simp [cacheDel, List.lookup]
  | cons hd tl ih =>
      by_cases h : hd.1 = k
      · simpa [cacheDel, List.filter_cons, h] using ih
      · have hb : (k == hd.1) = false := by
          simp only [beq_eq_false_iff_ne]
          exact fun hh => h hh.symm
        simpa [cacheDel, List.filter_cons, h, List.lookup, hb] using ih

theorem assocSet_not_mem {α β : Type} [DecidableEq α]
    (l : List (α × β)) (k : α) (v : β) (h : k ∉ l.map Prod.fst) :
    assocSet l k v = l ++ [(k, v)] := by
  induction l with
  | nil => simp [assocSet]
  | cons hd tl ih =>
      simp only [List.map_cons, List.mem_cons, not_or] at h
      simp [assocSet, Ne.symm h.1, ih h.2]

theorem foldl_assocSet_nodup {β : Type} (l acc : List (String × β))
    (h : ((acc ++ l).map Prod.fst).Nodup) :
    l.foldl (fun a p => assocSet a p.1 p.2) acc = acc ++ l := by
  induction l generalizing acc with
  | nil => simp
  | cons hd tl ih =>
      have hmem : hd.1 ∉ acc.map Prod.fst := by
        simp only [List.map_append, List.nodup_append] at h
        intro hc
        exact h.2.2 hc (by simp)
      have h2 : (((acc ++ [hd]) ++ tl).map Prod.fst).Nodup := by
        simpa [List.append_assoc] using h
      calc (hd :: tl).foldl (fun a p => assocSet a p.1 p.2) acc
          = tl.foldl (fun a p => assocSet a p.1 p.2) (assocSet acc hd.1 hd.2) := by
            simp [List.foldl_cons]
        _ = tl.foldl (fun a p => assocSet a p.1 p.2) (acc ++ [hd]) := by
            rw [assocSet_not_mem acc hd.1 hd.2 hmem]
        _ = (acc ++ [hd]) ++ tl := ih (acc ++ [hd]) h2
        _ = acc ++ hd :: tl := by simp

theorem loadsS_nodup (m : StrMap) (h : (m.map Prod.fst).Nodup) :
    loadsS m = m := by
  simpa [loadsS] using foldl_assocSet_nodup m [] (by simpa using h)

theorem loadsS_append_single (m : StrMap) (k v : String) :
    loadsS (m ++ [(k, v)]) = assocSet (loadsS m) k v := by
  simp [loadsS, List.foldl_append]

theorem statusOfValue_value (σ : AttemptStatus) :
    statusOfValue σ.value = .ok σ := by
  cases σ <;> rfl

theorem from_dict_to_dict (a : QuizAttempt) :
    QuizAttempt.from_dict a.to_dict
      = .ok { a with answers := strKeyed (loadsS (dumpsA a.answers)) } := by
  simp [QuizAttempt.to_dict, QuizAttempt.from_dict, fromisoformat,
    jsonLoadsAns, statusOfValue_value, bind, Except.bind]

theorem dumpsA_strKeyed (m : StrMap) : dumpsA (strKeyed m) = m := by
  induction m with
  | nil => rfl
  | cons hd tl ih => simp [dumpsA, strKeyed, AKey.toStr] at ih ⊢; exact ih

theorem intKey_not_mem_strKeyed (m : StrMap) (n : Int) :
    AKey.intKey n ∉ (strKeyed m).map Prod.fst := by
  simp [strKeyed, List.mem_map]

/-- Workhorse: an `update_progress` whose initial read sees row `r` and
whose cache refresh finds a deserializable entry `(d, t)` runs the whole
accepted path: the row gains the new answer under the stringified step
key, the step cursor, a fresh `last_updated`, and version `r.version + 1`;
the cache is rewritten with the patched cached value at TTL 1800. -/
theorem update_progress_accepted_run (s : SysState) (sid : String)
    (qid : Int) (ans : String) (now : Nat) (r : DbRecord)
    (d : AttemptDict) (t : Nat) (a : QuizAttempt)
    (hr : List.lookup sid s.db = some r)
    (hc : List.lookup (cacheKey sid) s.cache = some (d, t))
    (hd : QuizAttempt.from_dict d = .ok a) :
    update_progress s sid qid ans now =
      ({ s with
          db := assocSet s.db sid
            { r with
              answers := assocSet (loadsS r.answers) (toString qid) ans
              current_question := qid
              last_updated := now
              version := r.version + 1 }
          cache := assocSet s.cache (cacheKey sid)
            (QuizAttempt.to_dict
              { a with
                answers := assocSet a.answers (.intKey qid) ans
                current_question := qid
                version := r.version + 1 }, 1800) },
        .ok true) := by
  unfold update_progress readPhase updateAfterRead commitPhase get_session
  rw [hr, hc]
  simp [hd, Except.map]

/-- C1: every accepted `updateProgress(id, stepId, response)` against a
durable row of version `v` commits version `v + 1`, the prior responses
mapping with `stepId` set/overwritten to `response`, `currentStep =
stepId`, and a fresh `lastUpdated`; hence over a sequence of accepted
updates each observed version is one more than the previous one. -/
theorem accepted_update_bumps_version (s : SysState) (sid : String)
    (qid : Int) (ans : String) (now : Nat) (r : DbRecord)
    (hr : List.lookup sid s.db = some r)
    (hok : (update_progress s sid qid ans now).2 = .ok true) :
    ∃ r2, List.lookup sid (update_progress s sid qid ans now).1.db = some r2 ∧
      r2.version = r.version + 1 ∧
      r2.answers = assocSet (loadsS r.answers) (toString qid) ans ∧
      r2.current_question = qid ∧
      r2.last_updated = now := by
  unfold update_progress readPhase updateAfterRead commitPhase at hok ⊢
  rw [hr] at hok ⊢
  simp only [Option.map_some'] at hok ⊢
  cases hres : (get_session s sid).2 with
  | error e => simp [hres, if_pos rfl] at hok
  | ok o =>
      cases o with
      | none =>
          simp only [hres, if_pos rfl]
          exact ⟨_, lookup_assocSet_self s.db sid _, rfl, rfl, rfl, rfl⟩
      | some a =>
          simp only [hres, if_pos rfl]
          exact ⟨_, lookup_assocSet_self s.db sid _, rfl, rfl, rfl, rfl⟩

/-- Witness for C1 at a concrete reachable state: updating step 1 with
response "A" on the fresh session advances the row to version 2. -/
theorem accepted_update_bumps_version_witness :
    ∃ r2, List.lookup "s1" (update_progress st0 "s1" 1 "A" 5).1.db = some r2 ∧
      r2.version = row0.version + 1 ∧
      r2.answers = assocSet (loadsS row0.answers) (toString (1 : Int)) "A" ∧
      r2.current_question = 1 ∧
      r2.last_updated = 5 :=
  accepted_update_bumps_version st0 "s1" 1 "A" 5 row0 (by decide) (by decide)

/-- C2: when the conditional update's version check fails (the stored
version no longer equals the version that was read) the operation
leaves the durable state and the whole system state untouched and
reports `accepted = false`, with no internal retry; when the record is
absent, `update_progress` likewise reports `accepted = false` without
touching anything. -/
theorem conflict_and_absent_rejected (s : SysState) (sid : String)
    (qid : Int) (ans : String) (now : Nat) (expectedVersion : Int)
    (ansText : StrMap) :
    (∀ r, List.lookup sid s.db = some r → r.version ≠ expectedVersion →
      updateAfterRead s sid qid ans now (expectedVersion, ansText)
        = (s, .ok false)) ∧
    (List.lookup sid s.db = none →
      update_progress s sid qid ans now = (s, .ok false)) := by
  constructor
  · intro r hr hne
    unfold updateAfterRead commitPhase
    rw [hr]
    simp [hne]
  · intro hnone
    unfold update_progress readPhase
    rw [hnone]
    rfl

/-- Witness for C2: a call whose read snapshot carried version 0 while
the stored row is at version 1 is rejected without mutation, and a call
on an unknown id is rejected without mutation. -/
theorem conflict_and_absent_rejected_witness :
    updateAfterRead st0 "s1" 1 "A" 5 (0, []) = (st0, .ok false) ∧
    update_progress st0 "zzz" 1 "A" 5 = (st0, .ok false) :=
  ⟨(conflict_and_absent_rejected st0 "s1" 1 "A" 5 0 []).1 row0
      (by decide) (by decide),
    (conflict_and_absent_rejected st0 "zzz" 1 "A" 5 0 []).2 (by decide)⟩

/-- C3: two `update_progress` calls on the same session that both read
the same snapshot (same `expectedVersion`): in the serialization order
of the store, the first conditional update is accepted and commits
version `expectedVersion + 1`, the second is rejected with
`accepted = false` and changes nothing — no lost update, no torn
write. The first call's cache refresh is assumed to find a
deserializable entry, as the claim has both calls return a boolean. -/
theorem concurrent_updates_one_winner (s : SysState) (sid : String)
    (q1 q2 : Int) (a1 a2 : String) (n1 n2 : Nat) (r : DbRecord)
    (d : AttemptDict) (t : Nat) (a : QuizAttempt)
    (hr : List.lookup sid s.db = some r)
    (hc : List.lookup (cacheKey sid) s.cache = some (d, t))
    (hd : QuizAttempt.from_dict d = .ok a) :
    (updateAfterRead s sid q1 a1 n1 (r.version, r.answers)).2 = .ok true ∧
    (updateAfterRead
        (updateAfterRead s sid q1 a1 n1 (r.version, r.answers)).1
        sid q2 a2 n2 (r.version, r.answers))
      = ((updateAfterRead s sid q1 a1 n1 (r.version, r.answers)).1,
          .ok false) ∧
    ∃ r2, List.lookup sid
        (updateAfterRead s sid q1 a1 n1 (r.version, r.answers)).1.db
        = some r2 ∧
      r2.version = r.version + 1 ∧
      r2.answers = assocSet (loadsS r.answers) (toString q1) a1 := by
  have hrun := update_progress_accepted_run s sid q1 a1 n1 r d t a hr hc hd
  have hup : update_progress s sid q1 a1 n1
      = updateAfterRead s sid q1 a1 n1 (r.version, r.answers) := by
    unfold update_progress readPhase
    rw [hr]
    rfl
  rw [hup] at hrun
  rw [hrun]
  refine ⟨rfl, ?_, ?_⟩
  · unfold updateAfterRead commitPhase
    simp only
    rw [lookup_assocSet_self s.db sid]
    have hne : r.version + 1 ≠ r.version := by omega
    simp [hne]
  · exact ⟨_, lookup_assocSet_self s.db sid _, rfl, rfl⟩

/-- Witness for C3 on the fresh session: both calls read version 1;
the first commits version 2 and the second is rejected. -/
theorem concurrent_updates_one_winner_witness :
    (updateAfterRead st0 "s1" 1 "X" 10 (row0.version, row0.answers)).2
      = .ok true ∧
    (updateAfterRead
        (updateAfterRead st0 "s1" 1 "X" 10 (row0.version, row0.answers)).1
        "s1" 2 "Y" 11 (row0.version, row0.answers))
      = ((updateAfterRead st0 "s1" 1 "X" 10 (row0.version, row0.answers)).1,
          .ok false) ∧
    ∃ r2, List.lookup "s1"
        (updateAfterRead st0 "s1" 1 "X" 10 (row0.version, row0.answers)).1.db
        = some r2 ∧
      r2.version = row0.version + 1 ∧
      r2.answers = assocSet (loadsS row0.answers) (toString (1 : Int)) "X" :=
  concurrent_updates_one_winner st0 "s1" 1 2 "X" "Y" 10 11 row0
    attempt0.to_dict 1800 attempt0 (by decide) (by decide) (by decide)

/-- C9: `get_session` only ever performs read operations against the
two stores — one Redis `get`, and on a miss one PostgreSQL `SELECT`; in
particular a durable-store hit after a cache miss never repopulates the
cache, and no read changes any stored field. -/
theorem read_performs_no_writes (s : SysState) (session_id : String) :
    ((get_session s session_id).1.all (fun op => !op.isWrite)) = true := by
  unfold get_session
  cases List.lookup (cacheKey session_id) s.cache with
  | some p =>
      obtain ⟨d, t⟩ := p
      simp [StoreOp.isWrite]
  | none =>
      cases List.lookup session_id s.db with
      | some row => simp [StoreOp.isWrite]
      | none => simp [StoreOp.isWrite]

/-- C6 (code bug): `get_session`'s durable fallback does not return the
record. `dict(row)` holds datetime objects and the code pre-parses
`answers` into a dict, yet `from_dict` then applies
`datetime.fromisoformat` / `json.loads` to those non-strings and raises
`TypeError`. Concretely: a cache hit deserializes fine, a session
present in neither store reads as absent, but the session `"s2"` that
exists only durably makes `get_session` raise instead of returning it. -/
theorem read_db_fallback_raises :
    (get_session st0 "s1").2 = .ok (some attempt0) ∧
    (get_session stDbOnly "zzz").2 = .ok none ∧
    List.lookup "s2" stDbOnly.db = some rowOnly ∧
    List.lookup (cacheKey "s2") stDbOnly.cache = none ∧
    (get_session stDbOnly "s2").2 = .error .typeError := by decide

/-- C4 counterexample: the claim that every `updateProgress` on a
terminal session returns `accepted = false` and changes nothing is
false: `update_progress` never consults `status`, so on the completed
session `stC` the update is accepted and the row mutates to version 2
with the new answer. -/
theorem terminal_update_counterexample :
    terminalS rowC.status = true ∧
    attemptC.status.isTerminal = true ∧
    (update_progress stC "s1" 2 "B" 9).2 = .ok true ∧
    (List.lookup "s1" (update_progress stC "s1" 2 "B" 9).1.db).map
      (fun r => (r.version, r.answers, r.status))
      = some (2, [("2", "B")], "completed") := by decide

/-- C4 (amended): `update_progress` performs no status check at all;
on a session whose durable status is terminal it behaves exactly as on
a live one — when the version check passes and the cache refresh finds
a deserializable entry, it returns `accepted = true` and mutates the
record. -/
theorem terminal_update_accepted (s : SysState) (sid : String)
    (qid : Int) (ans : String) (now : Nat) (r : DbRecord)
    (d : AttemptDict) (t : Nat) (a : QuizAttempt)
    (hr : List.lookup sid s.db = some r)
    (hterm : terminalS r.status = true)
    (hc : List.lookup (cacheKey sid) s.cache = some (d, t))
    (hd : QuizAttempt.from_dict d = .ok a) :
    (update_progress s sid qid ans now).2 = .ok true ∧
    ∃ r2, List.lookup sid (update_progress s sid qid ans now).1.db
        = some r2 ∧
      r2.version = r.version + 1 ∧
      r2.answers = assocSet (loadsS r.answers) (toString qid) ans ∧
      r2.status = r.status := by
  rw [update_progress_accepted_run s sid qid ans now r d t a hr hc hd]
  exact ⟨rfl, _, lookup_assocSet_self s.db sid _, rfl, rfl, rfl⟩

/-- Witness for the amended C4 on the expired session `stExp`. -/
theorem terminal_update_accepted_witness :
    (update_progress stExp "s1" 3 "C" 9).2 = .ok true ∧
    ∃ r2, List.lookup "s1" (update_progress stExp "s1" 3 "C" 9).1.db
        = some r2 ∧
      r2.version = rowExp.version + 1 ∧
      r2.answers = assocSet (loadsS rowExp.answers) (toString (3 : Int)) "C" ∧
      r2.status = rowExp.status :=
  terminal_update_accepted stExp "s1" 3 "C" 9 rowExp attemptExp.to_dict
    1800 attemptExp (by decide) (by decide) (by decide) (by decide)

/-- C5 counterexample: the claim that `complete` returns `false` with
no side effects when the status is any terminal one is false: the
UPDATE only excludes `'completed'`, so completing the expired session
`stExp` returns `true` and overwrites its terminal status. -/
theorem complete_expired_counterexample :
    terminalS rowExp.status = true ∧
    (complete_session stExp "s1" 9).2 = true ∧
    (List.lookup "s1" (complete_session stExp "s1" 9).1.db).map
      (fun r => r.status) = some "completed" ∧
    (complete_session stExp "s1" 9).1 ≠ stExp := by decide

/-- C5 (amended): `complete(id)` returns `true` iff a durable record
exists whose status is not `Completed` — `Expired` and `Abandoned`
sessions are re-completed, their terminal status overwritten. On
`true` it sets status to `Completed` with a fresh `lastUpdated`,
deletes the cache entry and removes the keep-alive task handle; on
`false` it changes nothing; a second `complete` on the same id returns
`false` and changes nothing. -/
theorem complete_excludes_only_completed (s : SysState) (sid : String)
    (now now2 : Nat) :
    ((complete_session s sid now).2 = true ↔
      ∃ r, List.lookup sid s.db = some r ∧ r.status ≠ "completed") ∧
    ((complete_session s sid now).2 = false →
      (complete_session s sid now).1 = s) ∧
    ((complete_session s sid now).2 = true →
      List.lookup (cacheKey sid) (complete_session s sid now).1.cache
          = none ∧
      (complete_session s sid now).1.tasks = s.tasks.erase sid ∧
      (∃ r2, List.lookup sid (complete_session s sid now).1.db = some r2 ∧
        r2.status = "completed" ∧ r2.last_updated = now) ∧
      complete_session (complete_session s sid now).1 sid now2
        = ((complete_session s sid now).1, false)) := by
  cases hr : List.lookup sid s.db with
  | none =>
      have he : complete_session s sid now = (s, false) := by
        unfold complete_session
        rw [hr]
      rw [he]
      refine ⟨⟨fun h => absurd h (by simp), ?_⟩, fun _ => rfl,
        fun h => absurd h (by simp)⟩
      rintro ⟨r, hr2, -⟩
      exact absurd hr2 (by simp)
  | some r =>
      by_cases hst : r.status = "completed"
      · have he : complete_session s sid now = (s, false) := by
          unfold complete_session
          rw [hr]
          simp [hst]
        rw [he]
        refine ⟨⟨fun h => absurd h (by simp), ?_⟩, fun _ => rfl,
          fun h => absurd h (by simp)⟩
        rintro ⟨r2, hr2, hne⟩
        injection hr2 with h3
        exact absurd (h3 ▸ hst) hne
      · have he : complete_session s sid now =
            ({ db := assocSet s.db sid
                  { r with status := "completed", last_updated := now }
               cache := cacheDel s.cache (cacheKey sid)
               tasks := s.tasks.erase sid }, true) := by
          unfold complete_session
          rw [hr]
          simp [hst]
        rw [he]
        refine ⟨⟨fun _ => ⟨r, rfl, hst⟩, fun _ => rfl⟩,
          fun h => absurd h (by simp), fun _ => ?_⟩
        refine ⟨lookup_cacheDel_self s.cache (cacheKey sid), rfl,
          ⟨_, lookup_assocSet_self s.db sid _, rfl, rfl⟩, ?_⟩
        simp [complete_session, lookup_assocSet_self]

/-- Witness for the amended C5: the first `complete` on the fresh
session returns `true`; repeating it returns `false` and changes
nothing further. -/
theorem complete_excludes_only_completed_witness :
    (complete_session st0 "s1" 3).2 = true ∧
    complete_session (complete_session st0 "s1" 3).1 "s1" 4
      = ((complete_session st0 "s1" 3).1, false) := by
  have h := complete_excludes_only_completed st0 "s1" 3 4
  have hb : (complete_session st0 "s1" 3).2 = true :=
    h.1.mpr ⟨row0, by decide, by decide⟩
  exact ⟨hb, (h.2.2 hb).2.2.2⟩

/-- C8 counterexample: the claim that a tick exits the loop exactly
when the session is absent or terminal is false: on the expired
(terminal) session `stExp` the tick does not exit — it touches
`last_updated` and keeps looping. The loop's error handlers also sit
outside the `while`, so an exception during a tick (here: the
cache-miss fallback raising `TypeError`) terminates the loop instead of
continuing to the next tick. -/
theorem keep_alive_tick_counterexample :
    attemptExp.status.isTerminal = true ∧
    terminalS rowExp.status = true ∧
    (autoSaveTick stExp "s1" 99).2 = .touch ∧
    (autoSaveTick stExp "s1" 99).2 ≠ .exitBreak ∧
    (autoSaveTick stDbOnly "s2" 99).2 = .exitError := by decide

/-- C8 (amended): a tick exits the loop via `break` iff `get_session`
reports the session absent or its status is `Completed` specifically
(an `Expired`/`Abandoned` session read from the cache keeps the loop
touching); a non-`Completed` session found in the cache gets only its
`last_updated` touched (version, status, answers, currentStep
untouched), and an exception during the tick (for instance the
durable-fallback `TypeError` after a cache miss with the row present)
terminates the loop, because the handlers are outside the `while`. -/
theorem keep_alive_tick_behaviour (s : SysState) (sid : String)
    (now : Nat) :
    (∀ d t a, List.lookup (cacheKey sid) s.cache = some (d, t) →
      QuizAttempt.from_dict d = .ok a →
      (autoSaveTick s sid now).2
          = (if a.status = .completed then .exitBreak else .touch) ∧
      (a.status ≠ .completed →
        (autoSaveTick s sid now).1.cache = s.cache ∧
        (autoSaveTick s sid now).1.tasks = s.tasks ∧
        ∀ r, List.lookup sid s.db = some r →
          List.lookup sid (autoSaveTick s sid now).1.db
            = some { r with last_updated := now })) ∧
    (List.lookup (cacheKey sid) s.cache = none →
      List.lookup sid s.db = none →
      autoSaveTick s sid now = (s, .exitBreak)) ∧
    (List.lookup (cacheKey sid) s.cache = none →
      ∀ r, List.lookup sid s.db = some r →
        (autoSaveTick s sid now).2 = .exitError) := by
  refine ⟨?_, ?_, ?_⟩
  · intro d t a hc hd
    have hget : (get_session s sid).2 = .ok (some a) := by
      unfold get_session
      rw [hc]
      simp [hd, Except.map]
    constructor
    · by_cases hst : a.status = .completed
      · simp [autoSaveTick, hget, hst]
      · simp [autoSaveTick, hget, hst]
    · intro hst
      have ht : autoSaveTick s sid now
          = ({ s with db := dbTouch s.db sid now }, .touch) := by
        simp [autoSaveTick, hget, hst]
      rw [ht]
      refine ⟨rfl, rfl, fun r hr => ?_⟩
      simp only [dbTouch, hr]
      exact lookup_assocSet_self s.db sid _
  · intro hc hr
    have hget : (get_session s sid).2 = .ok none := by
      unfold get_session
      rw [hc, hr]
    simp [autoSaveTick, hget]
  · intro hc r hr
    have hget : (get_session s sid).2 = .error .typeError := by
      unfold get_session
      rw [hc, hr]
      simp [QuizAttempt.from_dict, fromisoformat, Except.map, bind,
        Except.bind]
    simp [autoSaveTick, hget]

/-- Witness for the amended C8: on the fresh live session a tick
touches `last_updated` only; on an id in neither store it breaks; on
the durable-only session it exits with an error. -/
theorem keep_alive_tick_behaviour_witness :
    (autoSaveTick st0 "s1" 99).2 = .touch ∧
    autoSaveTick stDbOnly "zzz" 99 = (stDbOnly, .exitBreak) ∧
    (autoSaveTick stDbOnly "s2" 99).2 = .exitError := by
  refine ⟨?_, ?_, ?_⟩
  · have h := ((keep_alive_tick_behaviour st0 "s1" 99).1
      attempt0.to_dict 1800 attempt0 (by decide) (by decide)).1
    simpa using h
  · exact (keep_alive_tick_behaviour stDbOnly "zzz" 99).2.1
      (by decide) (by decide)
  · exact (keep_alive_tick_behaviour stDbOnly "s2" 99).2.2
      (by decide) rowOnly (by decide)

/-- Whether a status string is one of `statusOfValue`'s accepted
values determines a successful parse that round-trips the string. -/
theorem statusParses_ok (v : String) (h : statusParses v = true) :
    ∃ σ : AttemptStatus, statusOfValue v = .ok σ ∧ σ.value = v := by
  unfold statusParses at h
  simp only [Bool.or_eq_true, decide_eq_true_eq] at h
  rcases h with (((h | h) | h) | h) | h
  · subst h
    exact ⟨.started, by decide, by decide⟩
  · subst h
    exact ⟨.in_progress, by decide, by decide⟩
  · subst h
    exact ⟨.completed, by decide, by decide⟩
  · subst h
    exact ⟨.expired, by decide, by decide⟩
  · subst h
    exact ⟨.abandoned, by decide, by decide⟩

/-- Every enum value's string is accepted by `statusParses`. -/
theorem statusParses_value (σ : AttemptStatus) :
    statusParses σ.value = true := by
  cases σ <;> decide

/-- A cache entry in sync with row `r` deserializes successfully, to
the row's content under some parsed status `σ` with `σ.value =
r.status` and some (possibly lagging) `lastUpdated` instant `tl`. -/
theorem entrySync_from_dict (e : AttemptDict) (r : DbRecord)
    (h : entrySync e r) :
    ∃ σ tl, σ.value = r.status ∧
      QuizAttempt.from_dict e = .ok
        { id := r.id
          user_id := r.user_id
          quiz_id := r.quiz_id
          started_at := r.started_at
          current_question := r.current_question
          answers := strKeyed r.answers
          status := σ
          time_remaining := r.time_remaining
          last_updated := tl
          version := r.version } := by
  obtain ⟨h1, h2, h3, h4, h5, h6, h7, h8, h9, h10, h11⟩ := h
  obtain ⟨σ, hσ, hσv⟩ := statusParses_ok e.status h8
  cases hlu : e.last_updated with
  | dt t2 =>
      rw [hlu] at h9
      simp [TimeVal.isIso] at h9
  | iso tl =>
      refine ⟨σ, tl, h7 ▸ hσv, ?_⟩
      unfold QuizAttempt.from_dict
      rw [h4, hlu, h6, hσ]
      simp [fromisoformat, bind, Except.bind, h1, h2, h3, h5, h10, h11]

/-- C7: whenever `updateProgress`'s conditional update is accepted, the
cache entry is rewritten with a fresh TTL (1800) and the rewritten
entry equals the newly committed durable record: its version,
currentStep and deserialized responses all equal the state just
committed — and the rewritten entry is again in sync with the new row.
The hypothesis `entrySync e r` is the invariant every reachable cache
entry satisfies, by the source's own serialization: the refresh
`setex` (line 111) runs inside the update's transaction before COMMIT,
so a call whose read observes a committed version also observes the
refresh that preceded that COMMIT; `create` establishes the invariant
(`create_establishes_entrySync`), this theorem re-establishes it on
every accepted update, keep-alive ticks preserve it
(`tick_preserves_entrySync`), `complete` deletes the entry
(`lookup_cacheDel_self`), and when the entry is absent instead (TTL
expiry or deletion) the refresh raises and the transaction rolls back,
so the call returns no `accepted = true` at all
(`update_progress_cache_miss_raises`). -/
theorem cache_refresh_in_sync (s : SysState) (sid : String) (qid : Int)
    (ans : String) (now : Nat) (r : DbRecord) (e : AttemptDict) (t : Nat)
    (hr : List.lookup sid s.db = some r)
    (hc : List.lookup (cacheKey sid) s.cache = some (e, t))
    (hsync : entrySync e r) :
    ∃ d r2,
      List.lookup (cacheKey sid) (update_progress s sid qid ans now).1.cache
        = some (d, 1800) ∧
      List.lookup sid (update_progress s sid qid ans now).1.db = some r2 ∧
      (update_progress s sid qid ans now).2 = .ok true ∧
      d.version = r2.version ∧
      d.current_question = r2.current_question ∧
      jsonLoadsAns d.answers = .ok r2.answers ∧
      entrySync d r2 := by
  obtain ⟨σ, tl, hσv, hfd⟩ := entrySync_from_dict e r hsync
  rw [update_progress_accepted_run s sid qid ans now r e t _ hr hc hfd]
  have hans : jsonLoadsAns (.text (dumpsA
      (assocSet (strKeyed r.answers) (.intKey qid) ans)))
    = .ok (assocSet (loadsS r.answers) (toString qid) ans) := by
    rw [assocSet_not_mem _ _ _ (intKey_not_mem_strKeyed r.answers qid)]
    have h1 : dumpsA (strKeyed r.answers ++ [(AKey.intKey qid, ans)])
        = r.answers ++ [(toString qid, ans)] := by
      have h2 : dumpsA (strKeyed r.answers ++ [(AKey.intKey qid, ans)])
          = dumpsA (strKeyed r.answers)
              ++ dumpsA [(AKey.intKey qid, ans)] := by
        simp [dumpsA]
      rw [h2, dumpsA_strKeyed]
      rfl
    rw [h1]
    simp [jsonLoadsAns, loadsS_append_single]
  refine ⟨_, _, lookup_assocSet_self s.cache (cacheKey sid) _,
    lookup_assocSet_self s.db sid _, rfl, rfl, rfl, hans,
    rfl, rfl, rfl, rfl, rfl, hans, hσv, statusParses_value σ, rfl, rfl,
    rfl⟩

/-- Witness for C7 at the reachable fresh session: the refreshed entry
matches the committed record and is again in sync with it. -/
theorem cache_refresh_in_sync_witness :
    ∃ d r2,
      List.lookup (cacheKey "s1") (update_progress st0 "s1" 1 "A" 5).1.cache
        = some (d, 1800) ∧
      List.lookup "s1" (update_progress st0 "s1" 1 "A" 5).1.db = some r2 ∧
      (update_progress st0 "s1" 1 "A" 5).2 = .ok true ∧
      d.version = r2.version ∧
      d.current_question = r2.current_question ∧
      jsonLoadsAns d.answers = .ok r2.answers ∧
      entrySync d r2 :=
  cache_refresh_in_sync st0 "s1" 1 "A" 5 row0 attempt0.to_dict 1800
    (by decide) (by decide) (by decide)

/-- A missing cache entry at refresh time makes `update_progress`
raise and roll back: the refresh's `get_session` falls to the durable
store and raises `TypeError`, undoing the accepted conditional update,
so an absent entry never yields `accepted = true` beside an
unrefreshed cache. -/
theorem update_progress_cache_miss_raises (s : SysState) (sid : String)
    (qid : Int) (ans : String) (now : Nat) (r : DbRecord)
    (hr : List.lookup sid s.db = some r)
    (hc : List.lookup (cacheKey sid) s.cache = none) :
    update_progress s sid qid ans now = (s, .error .typeError) := by
  unfold update_progress readPhase updateAfterRead commitPhase get_session
  rw [hr, hc]
  simp [QuizAttempt.from_dict, fromisoformat, bind, Except.bind,
    Except.map]

/-- `create_session` establishes the cache-sync invariant: the entry
it writes is in sync with the row it inserts. -/
theorem create_establishes_entrySync :
    List.lookup (cacheKey "s1") st0.cache = some (attempt0.to_dict, 1800) ∧
    List.lookup "s1" st0.db = some row0 ∧
    entrySync attempt0.to_dict row0 := by decide

/-- A keep-alive tick preserves the cache-sync invariant: the cache is
untouched and the row changes at most in `lastUpdated`, which
`entrySync` does not constrain. -/
theorem tick_preserves_entrySync (s : SysState) (sid : String)
    (now : Nat) (e : AttemptDict) (r : DbRecord)
    (hs : entrySync e r) :
    (autoSaveTick s sid now).1.cache = s.cache ∧
    (List.lookup sid s.db = some r →
      ∀ r2, List.lookup sid (autoSaveTick s sid now).1.db = some r2 →
        entrySync e r2) := by
  cases hg : (get_session s sid).2 with
  | error err =>
      have ht : autoSaveTick s sid now = (s, .exitError) := by
        simp [autoSaveTick, hg]
      rw [ht]
      refine ⟨rfl, fun hr r2 h2 => ?_⟩
      rw [hr] at h2
      injection h2 with h3
      exact h3 ▸ hs
  | ok o =>
      cases o with
      | none =>
          have ht : autoSaveTick s sid now = (s, .exitBreak) := by
            simp [autoSaveTick, hg]
          rw [ht]
          refine ⟨rfl, fun hr r2 h2 => ?_⟩
          rw [hr] at h2
          injection h2 with h3
          exact h3 ▸ hs
      | some a =>
          by_cases hst : a.status = .completed
          · have ht : autoSaveTick s sid now = (s, .exitBreak) := by
              simp [autoSaveTick, hg, hst]
            rw [ht]
            refine ⟨rfl, fun hr r2 h2 => ?_⟩
            rw [hr] at h2
            injection h2 with h3
            exact h3 ▸ hs
          · have ht : autoSaveTick s sid now
                = ({ s with db := dbTouch s.db sid now }, .touch) := by
              simp [autoSaveTick, hg, hst]
            rw [ht]
            refine ⟨rfl, fun hr r2 h2 => ?_⟩
            simp only [dbTouch, hr] at h2
            rw [lookup_assocSet_self] at h2
            injection h2 with h3
            subst h3
            exact hs

/-- C10 counterexample: the round trip is not the identity — the
integer key does not survive. On the record whose answers dict is
`{1: "A"}`, `from_dict(to_dict(r))` yields answers `{"1": "A"}` with a
string key: `json.dumps` stringifies the int key and `json.loads`
never converts it back. -/
theorem round_trip_counterexample :
    QuizAttempt.from_dict attemptIK.to_dict ≠ .ok attemptIK ∧
    QuizAttempt.from_dict attemptIK.to_dict
      = .ok { attemptIK with answers := [(.strKey "1", "A")] } := by decide

/-- C10 (amended): for every record whose answers keys have pairwise
distinct string forms, `from_dict(to_dict(record))` succeeds and
returns the record with every other field intact and the answers
mapping key-stringified: values survive, int keys come back as their
decimal strings. (When two keys share a string form, `json.dumps`
emits a duplicate and the last value wins on reload.) -/
theorem round_trip_stringifies_keys (a : QuizAttempt)
    (h : ((dumpsA a.answers).map Prod.fst).Nodup) :
    QuizAttempt.from_dict a.to_dict
      = .ok { a with answers := strKeyed (dumpsA a.answers) } := by
  rw [from_dict_to_dict, loadsS_nodup _ h]

/-- Witness for the amended C10 at the int-keyed record. -/
theorem round_trip_stringifies_keys_witness :
    QuizAttempt.from_dict attemptIK.to_dict
      = .ok { attemptIK with answers := strKeyed (dumpsA attemptIK.answers) } :=
  round_trip_stringifies_keys attemptIK (by decide)
